import Mathlib

/-!
# clusterui — verification of the specified session lifecycle

The repository ships a single Python source file, `setup.py`, which is a
packaging declaration: it binds a literal dictionary `meta` and calls
`setup(**meta)` once.  That module is embedded directly below.

The tool's core (the `cui` script named by the packaging declaration) is not
present in the repository; the specification describes its design.  The
lifecycle state machine, scheduler adapter and cleanup guarantor are therefore
modelled from the spec and the claims are settled against that model.
-/

namespace ClusterUI

/-! ## Embedding of `setup.py` -/

/-- A Python value as it occurs in `setup.py`: a string literal or a list of
string literals. -/
inductive PyValue where
  | str (s : String)
  | strList (xs : List String)
deriving DecidableEq, Repr

/-- The literal dictionary bound to `meta` in `setup.py`, as an ordered
association list (key, value), one entry per keyword in source order. -/
def meta : List (String × PyValue) :=
  [("name", .str "clusterui"),
   ("version", .str "0.1"),
   ("license", .str "MIT"),
   ("description", .str "Run interactive/UI jobs in a Condor cluster"),
   ("author", .str "Will Maier"),
   ("author_email", .str "wcmaier@hep.wisc.edu"),
   ("url", .str "http://hg.hep.wisc.edu/cmsops/clusterui"),
   ("scripts", .strList ["cui"])]

/-- Evaluating the module `setup.py`: the sequence of `setup` calls it makes,
each recorded as the keyword-argument list passed.  The module body is the
`meta` binding followed by the single call `setup(**meta)`, and nothing else,
so evaluation is a constant. -/
def moduleSetupCalls : List (List (String × PyValue)) := [meta]

/-! ## Spec-modelled core data model

Modelled from the spec: the `cui` script itself is missing from the
repository (only the packaging declaration names it), so the data model of
spec section 3 is transcribed here. -/

/-- Modelled from the spec: normalized scheduler-observed state returned by
the Scheduler Adapter's query (spec section 4.2). -/
inductive SchedulerObservedState where
  | Idle
  | Queued
  | Running (endpoint : String)
  | Preempted
  | Held
  | Gone
deriving DecidableEq, Repr

/-- Modelled from the spec: terminationReason values (spec section 3). -/
inductive TerminationReason where
  | UserClosed
  | Timeout
  | Preempted
  | SchedulerError
  | Removed
deriving DecidableEq, Repr

/-- Modelled from the spec: lifecycle states of a session
(spec section 4.1). -/
inductive SessionState where
  | Pending
  | Submitted
  | Queued
  | Running
  | Closing
  | Terminal
deriving DecidableEq, Repr

/-- Which scheduler-level fault put the session into
`Terminal`/`SchedulerError`; distinguishes the process exit code for a
rejected submit from exhaustion of the query retry budget
(spec sections 6 and 7). -/
inductive FailKind where
  | rejected
  | unavailable
deriving DecidableEq, Repr

/-- Modelled from the spec: the mutable record of one tracked session
(spec section 3).  Timeouts are delivered to the state machine as explicit
events, so the timestamp fields used only to generate those events are not
carried here. -/
structure SessionDescriptor where
  requestId : Option String
  state : SessionState
  executionEndpoint : Option String
  terminationReason : Option TerminationReason
  failKind : Option FailKind
  preemptRetriesLeft : Nat
  queryFailStreak : Nat
deriving DecidableEq, Repr

/-- Configured bounds: the query-failure retry budget and the preemption
resubmission budget (spec sections 4.1 and 7); flagged by the spec as
configuration points. -/
structure Config where
  queryFailBound : Nat
  preemptRetries : Nat
deriving DecidableEq, Repr

/-- Events the Lifecycle State Machine reacts to: submit results, poll-loop
observations and failures, user interrupt, time-limit expiry, channel
closure, and completion of the removal issued during `Closing`. -/
inductive Event where
  | submitOk (id : String)
  | submitRejected
  | observed (o : SchedulerObservedState)
  | queryFailed
  | userClose
  | timeLimitExpired
  | channelClosed
  | removeDone
deriving DecidableEq, Repr

/-- Calls the state machine issues against its collaborators: scheduler
removal (Cleanup Guarantor), interactive channel open, channel close. -/
inductive Action where
  | removeCall (id : String)
  | openChannel (endpoint : String)
  | closeChannel
deriving DecidableEq, Repr

/-- Enter `Terminal` with reason `r`, issuing the cleanup removal for the
session's requestId when one was assigned (Cleanup Guarantor; removal of an
already-gone id is treated as success, spec section 4.2). -/
def finishCleanup (d : SessionDescriptor) (r : TerminationReason) :
    SessionDescriptor × List Action :=
  match d.requestId with
  | some i =>
      ({ d with state := .Terminal, terminationReason := some r,
                executionEndpoint := none }, [.removeCall i])
  | none =>
      ({ d with state := .Terminal, terminationReason := some r,
                executionEndpoint := none }, [])

/-- Enter `Closing` with eventual reason `r`: the channel is torn down and
the removal is put in flight (spec section 4.1).  With no requestId assigned
there is nothing scheduler-side, so the session goes directly to
`Terminal` without a removal. -/
def beginClosing (d : SessionDescriptor) (r : TerminationReason) :
    SessionDescriptor × List Action :=
  match d.requestId with
  | some i =>
      ({ d with state := .Closing, terminationReason := some r,
                executionEndpoint := none }, [.removeCall i])
  | none =>
      ({ d with state := .Terminal, terminationReason := some r,
                executionEndpoint := none }, [])

/-- React to a `Preempted` observation: with retries remaining the session
is resubmitted back to `Queued` (requestId unchanged); with the budget
exhausted it yields `Terminal(Preempted)` (spec sections 4.1 and 8). -/
def handlePreempt (d : SessionDescriptor) : SessionDescriptor × List Action :=
  if 0 < d.preemptRetriesLeft then
    ({ d with state := .Queued, executionEndpoint := none,
              preemptRetriesLeft := d.preemptRetriesLeft - 1,
              queryFailStreak := 0 }, [])
  else finishCleanup d .Preempted

/-- React to a successful status observation while polling in `Submitted` or
`Queued`.  A successful query resets the consecutive-failure streak. -/
def pollObserved (d : SessionDescriptor) (o : SchedulerObservedState) :
    SessionDescriptor × List Action :=
  match o with
  | .Idle => ({ d with state := .Queued, queryFailStreak := 0 }, [])
  | .Queued => ({ d with state := .Queued, queryFailStreak := 0 }, [])
  | .Running e =>
      ({ d with state := .Running, executionEndpoint := some e,
                queryFailStreak := 0 }, [.openChannel e])
  | .Preempted => handlePreempt d
  | .Held => ({ d with queryFailStreak := 0 }, [])
  | .Gone => finishCleanup d .Removed

/-- React to a `SchedulerUnavailable` query failure: bump the consecutive
failure streak; on reaching the configured bound the session is marked
`Terminal(SchedulerError)` (spec sections 4.1 and 8).  The scheduler being
unreachable, no removal is issued here: the recorded obligation is left for
the Cleanup Guarantor's reconciliation (spec section 4.4). -/
def queryFail (cfg : Config) (d : SessionDescriptor) :
    SessionDescriptor × List Action :=
  if cfg.queryFailBound ≤ d.queryFailStreak + 1 then
    ({ d with state := .Terminal, terminationReason := some .SchedulerError,
              failKind := some .unavailable, executionEndpoint := none }, [])
  else ({ d with queryFailStreak := d.queryFailStreak + 1 }, [])

/-- Reactions while `Pending`: the submit result arrives, or the user (or
the time limit) aborts before submission — with no requestId assigned there
is nothing scheduler-side to remove. -/
def stepPending (d : SessionDescriptor) (e : Event) :
    SessionDescriptor × List Action :=
  match e with
  | .submitOk i => ({ d with requestId := some i, state := .Submitted }, [])
  | .submitRejected =>
      ({ d with state := .Terminal,
                terminationReason := some .SchedulerError,
                failKind := some .rejected }, [])
  | .userClose =>
      ({ d with state := .Terminal,
                terminationReason := some .UserClosed }, [])
  | .timeLimitExpired =>
      ({ d with state := .Terminal,
                terminationReason := some .Timeout }, [])
  | _ => (d, [])

/-- Reactions while polling in `Submitted` or `Queued`. -/
def stepPolling (cfg : Config) (d : SessionDescriptor) (e : Event) :
    SessionDescriptor × List Action :=
  match e with
  | .observed o => pollObserved d o
  | .queryFailed => queryFail cfg d
  | .userClose => beginClosing d .UserClosed
  | .timeLimitExpired => beginClosing d .Timeout
  | _ => (d, [])

/-- Reactions while `Running`: the poll loop keeps watching for
`Preempted`/`Gone`, a repeated `Running` observation refreshes the endpoint
(latest response wins) without reopening the channel, and a close trigger
additionally signals the Interactive Channel Manager. -/
def stepRunning (cfg : Config) (d : SessionDescriptor) (e : Event) :
    SessionDescriptor × List Action :=
  match e with
  | .observed o =>
      match o with
      | .Running ep =>
          ({ d with executionEndpoint := some ep, queryFailStreak := 0 }, [])
      | .Idle => ({ d with queryFailStreak := 0 }, [])
      | .Queued => ({ d with queryFailStreak := 0 }, [])
      | .Held => ({ d with queryFailStreak := 0 }, [])
      | .Preempted => handlePreempt d
      | .Gone => finishCleanup d .Removed
  | .queryFailed => queryFail cfg d
  | .userClose =>
      let p := beginClosing d .UserClosed
      (p.1, .closeChannel :: p.2)
  | .timeLimitExpired =>
      let p := beginClosing d .Timeout
      (p.1, .closeChannel :: p.2)
  | .channelClosed =>
      let p := beginClosing d .UserClosed
      (p.1, .closeChannel :: p.2)
  | _ => (d, [])

/-- Reactions while `Closing`: the removal issued on entry completes and the
session becomes `Terminal`; results of superseded calls are discarded. -/
def stepClosing (d : SessionDescriptor) (e : Event) :
    SessionDescriptor × List Action :=
  match e with
  | .removeDone => ({ d with state := .Terminal }, [])
  | _ => (d, [])

/-- Modelled from the spec: one reaction of the Lifecycle State Machine
(spec section 4.1) to an event, returning the updated descriptor and the
calls issued.  `Terminal` absorbs every event as a no-op. -/
def step (cfg : Config) (d : SessionDescriptor) (e : Event) :
    SessionDescriptor × List Action :=
  match d.state with
  | .Pending => stepPending d e
  | .Submitted => stepPolling cfg d e
  | .Queued => stepPolling cfg d e
  | .Running => stepRunning cfg d e
  | .Closing => stepClosing d e
  | .Terminal => (d, [])

/-- The descriptor created when a SessionRequest is accepted for
submission. -/
def initDesc (cfg : Config) : SessionDescriptor :=
  { requestId := none, state := .Pending, executionEndpoint := none,
    terminationReason := none, failKind := none,
    preemptRetriesLeft := cfg.preemptRetries, queryFailStreak := 0 }

/-- Drive the state machine through a list of events. -/
def run (cfg : Config) (d : SessionDescriptor) : List Event → SessionDescriptor
  | [] => d
  | e :: es => run cfg (step cfg d e).1 es

/-- Drive the state machine through a list of events, also accumulating the
calls issued, in order. -/
def runAcc (cfg : Config) (d : SessionDescriptor) :
    List Event → SessionDescriptor × List Action
  | [] => (d, [])
  | e :: es =>
      let p := step cfg d e
      let q := runAcc cfg p.1 es
      (q.1, p.2 ++ q.2)

/-- The distinct process exit code for a submit rejected by the scheduler
(spec section 6; concrete values illustrative, distinctness is the
contract). -/
def schedulerRejectedCode : Nat := 1

/-- Process exit code selected by the terminal state (spec section 6):
0 on clean user-initiated close, distinct non-zero codes otherwise. -/
def exitCode (d : SessionDescriptor) : Nat :=
  match d.terminationReason with
  | some .UserClosed => 0
  | some .SchedulerError =>
      match d.failKind with
      | some .rejected => schedulerRejectedCode
      | _ => 2
  | some .Preempted => 4
  | some .Timeout => 5
  | some .Removed => 6
  | none => 7

/-- Position of a lifecycle state along the graph of spec section 4.1. -/
def rank : SessionState → Nat
  | .Pending => 0
  | .Submitted => 1
  | .Queued => 2
  | .Running => 3
  | .Closing => 4
  | .Terminal => 5

/-! ## Scheduler Adapter parsing (spec section 4.2) -/

/-- Faults surfaced by the Scheduler Adapter (spec section 7). -/
inductive AdapterError where
  | schedulerRejected
  | schedulerUnavailable
deriving DecidableEq, Repr

/-- Modelled from the spec: one raw status record as read back from the
external scheduler's query surface — a status token plus the execution
endpoint field (empty when none is published).  The concrete token
vocabulary is flagged by the spec as a configuration point; the tokens in
`knownStatusTokens` are the mapped ones. -/
structure RawOutput where
  status : String
  endpoint : String
deriving DecidableEq, Repr

/-- The status tokens the adapter knows how to map. -/
def knownStatusTokens : List String := ["I", "Q", "R", "P", "H", "X"]

/-- Modelled from the spec: the adapter's parse of a raw query result into
the normalized `SchedulerObservedState`.  Parsing fails closed: any token
outside the mapped vocabulary — and a running record carrying no endpoint —
surfaces `schedulerUnavailable` rather than being guessed at
(spec section 4.2). -/
def queryParse (raw : RawOutput) : Except AdapterError SchedulerObservedState :=
  if raw.status = "I" then .ok .Idle
  else if raw.status = "Q" then .ok .Queued
  else if raw.status = "R" then
    if raw.endpoint = "" then .error .schedulerUnavailable
    else .ok (.Running raw.endpoint)
  else if raw.status = "P" then .ok .Preempted
  else if raw.status = "H" then .ok .Held
  else if raw.status = "X" then .ok .Gone
  else .error .schedulerUnavailable

/-! ## Whole-process runs: crash, restart and the Cleanup Guarantor

Modelled from the spec (section 4.4): the pending removal obligation is
durably recorded when submit returns and cleared atomically with a
successful removal; on process start a stale marker is reconciled by issuing
the removal. -/

/-- An event at process level: a state-machine event delivered to the live
session, a crash (in-memory state lost, durable marker kept), or a process
restart (reconciliation of stale markers, spec section 4.4). -/
inductive SysEvent where
  | normal (e : Event)
  | crash
  | restart
deriving DecidableEq, Repr

/-- Process-level state: the in-memory descriptor (absent after a crash),
the durable pending-removal marker, and a history field recording the
requestId that reached `Submitted`, if any (used only to state properties;
it mirrors information already in the event history). -/
structure World where
  desc : Option SessionDescriptor
  marker : Option String
  submittedId : Option String
deriving DecidableEq, Repr

/-- Is this action a scheduler removal call? -/
def isRemoveCall : Action → Bool
  | .removeCall _ => true
  | _ => false

/-- Modelled from the spec: one process-level step.  A normal event is
handed to the Lifecycle State Machine; the durable marker is recorded when
submit assigns the requestId and cleared atomically with an issued removal
(spec section 4.4).  A crash drops the in-memory descriptor only; a restart
with a stale marker issues the reconciliation removal and clears the
marker. -/
def sysStep (cfg : Config) (w : World) : SysEvent → World × List Action
  | .crash => ({ w with desc := none }, [])
  | .restart =>
      match w.desc with
      | some _ => (w, [])
      | none =>
          match w.marker with
          | some i => ({ w with marker := none }, [.removeCall i])
          | none => (w, [])
  | .normal e =>
      match w.desc with
      | none => (w, [])
      | some d =>
          let p := step cfg d e
          let newId := d.requestId.isNone && p.1.requestId.isSome
          ({ desc := some p.1,
             marker := if p.2.any isRemoveCall then none
                       else if newId then p.1.requestId else w.marker,
             submittedId := if newId then p.1.requestId else w.submittedId },
           p.2)

/-- The world at first process start: a fresh descriptor, no marker. -/
def initWorld (cfg : Config) : World :=
  { desc := some (initDesc cfg), marker := none, submittedId := none }

/-- Drive the process-level system through a list of events, accumulating
the calls issued, in order. -/
def sysRunAcc (cfg : Config) (w : World) :
    List SysEvent → World × List Action
  | [] => (w, [])
  | e :: es =>
      let p := sysStep cfg w e
      let q := sysRunAcc cfg p.1 es
      (q.1, p.2 ++ q.2)

/-- Number of scheduler removal calls for id `i` in a list of issued
actions. -/
def removeCount (i : String) : List Action → Nat
  | [] => 0
  | .removeCall j :: t => (if j = i then 1 else 0) + removeCount i t
  | _ :: t => removeCount i t

/-- The session's whole lifetime is over: the removal obligation is cleared
and no live non-terminal descriptor remains (spec section 3: the descriptor
is destroyed only after the Cleanup Guarantor confirms removal). -/
def lifetimeComplete (w : World) : Prop :=
  w.marker = none ∧ ∀ d, w.desc = some d → d.state = .Terminal

/-- One item of an interleaved execution trace: an event as it is processed,
or a call issued while processing it (calls follow their event). -/
inductive TraceItem where
  | ev (e : SysEvent)
  | act (a : Action)
deriving DecidableEq, Repr

/-- The interleaved trace of a process-level run: each processed event
followed by the calls its step issued. -/
def sysTrace (cfg : Config) (w : World) : List SysEvent → List TraceItem
  | [] => []
  | e :: es =>
      let p := sysStep cfg w e
      .ev e :: (p.2.map .act ++ sysTrace cfg p.1 es)

/-- The descriptor invariant of spec section 3: `executionEndpoint` is
populated exactly when the session is `Running`. -/
def endpointInv (d : SessionDescriptor) : Prop :=
  d.executionEndpoint.isSome = true ↔ d.state = .Running

/-- Boolean membership in a list of strings. -/
def strMem (i : String) : List String → Bool
  | [] => false
  | j :: t => (j = i) || strMem i t

/-- Scan a trace checking the ordering guarantees of spec section 5:
`known` accumulates requestIds whose submit result has been processed,
`seen` accumulates execution endpoints observed `Running`; every removal
call must name a known requestId and every channel open must name a seen
endpoint. -/
def orderedScan (known : List String) (seen : List String) :
    List TraceItem → Bool
  | [] => true
  | .ev (.normal (.submitOk i)) :: t => orderedScan (i :: known) seen t
  | .ev (.normal (.observed (.Running e))) :: t =>
      orderedScan known (e :: seen) t
  | .ev _ :: t => orderedScan known seen t
  | .act (.removeCall i) :: t => strMem i known && orderedScan known seen t
  | .act (.openChannel e) :: t => strMem e seen && orderedScan known seen t
  | .act .closeChannel :: t => orderedScan known seen t

/-- The requestIds known after processing one more event: a processed
submit result adds its id. -/
def evKnown (known : List String) (e : SysEvent) : List String :=
  match e with
  | .normal (.submitOk i) => i :: known
  | _ => known

/-- The endpoints observed after processing one more event: a `Running`
observation adds its endpoint. -/
def evSeen (seen : List String) (e : SysEvent) : List String :=
  match e with
  | .normal (.observed (.Running ep)) => ep :: seen
  | _ => seen

/-- Invariant tying a world to the scan state of `orderedScan`: every
requestId the world still holds (in the descriptor or the durable marker)
has had its submit result processed, and every endpoint held in the
descriptor has been observed `Running`. -/
def scanInv (w : World) (known seen : List String) : Prop :=
  (∀ d, w.desc = some d → ∀ i, d.requestId = some i →
    strMem i known = true) ∧
  (∀ i, w.marker = some i → strMem i known = true) ∧
  (∀ d, w.desc = some d → ∀ ep, d.executionEndpoint = some ep →
    strMem ep seen = true)

/-- Invariant of the Cleanup Guarantor, tying a world to the removal calls
issued so far (`rc i` counts those naming `i`): a removal has been issued
for exactly the submitted requestId once its durable obligation marker is
cleared; the marker and the descriptor's requestId track the submitted id;
no removal is issued for ids never submitted. -/
def cleanupInv (w : World) (rc : String → Nat) : Prop :=
  (∀ i, rc i = if w.submittedId = some i ∧ w.marker = none then 1 else 0) ∧
  (∀ i, w.marker = some i → w.submittedId = some i) ∧
  (∀ d, w.desc = some d → d.requestId = w.submittedId) ∧
  (∀ d, w.desc = some d → d.state = .Pending → w.submittedId = none) ∧
  (∀ d, w.desc = some d →
    (d.state = .Submitted ∨ d.state = .Queued ∨ d.state = .Running) →
    w.marker = w.submittedId) ∧
  (∀ d, w.desc = some d → d.state = .Closing → w.marker = none)

end ClusterUI

namespace ClusterUI

/-! ## Basic lemmas about the state machine -/

/-- `Terminal` absorbs every event without issuing any call. -/
lemma step_of_terminal (cfg : Config) (d : SessionDescriptor) (e : Event)
    (h : d.state = .Terminal) : step cfg d e = (d, []) := by
  simp [step, h]

/-- A terminal session stays unchanged under any further events. -/
lemma run_of_terminal (cfg : Config) (es : List Event) (d : SessionDescriptor)
    (h : d.state = .Terminal) : run cfg d es = d := by
  induction es with
  | nil => rfl
  | cons e es ih =>
      simp [run, step_of_terminal cfg d e h]
      simpa [run, step_of_terminal cfg d e h] using ih

/-- A terminal session stays unchanged and issues no calls under any further
events. -/
lemma runAcc_of_terminal (cfg : Config) (es : List Event)
    (d : SessionDescriptor) (h : d.state = .Terminal) :
    runAcc cfg d es = (d, []) := by
  induction es with
  | nil => rfl
  | cons e es ih =>
      simp [runAcc, step_of_terminal cfg d e h, ih]

/-- One step preserves the endpoint invariant. -/
lemma endpointInv_step (cfg : Config) (d : SessionDescriptor) (e : Event)
    (h : endpointInv d) : endpointInv (step cfg d e).1 := by
  obtain ⟨rid, st, ep, tr, fk, pr, qf⟩ := d
  cases st <;> cases e <;>
    (try cases ‹SchedulerObservedState›) <;>
    (try cases rid) <;>
    simp only [step, stepPending, stepPolling, stepRunning, stepClosing,
      pollObserved, handlePreempt, finishCleanup, beginClosing, queryFail] <;>
    (try split) <;>
    simp_all [endpointInv]

/-- Any run from a descriptor satisfying the endpoint invariant preserves
it. -/
lemma endpointInv_run (cfg : Config) (es : List Event) :
    ∀ d : SessionDescriptor, endpointInv d → endpointInv (run cfg d es) := by
  induction es with
  | nil => intro d h; exact h
  | cons e es ih =>
      intro d h
      exact ih (step cfg d e).1 (endpointInv_step cfg d e h)

/-! ## Claim C2: executionEndpoint is populated iff Running -/

/-- C2: in every reachable descriptor state — any run of the state machine
from the initial descriptor — the `executionEndpoint` field is populated if
and only if the state is `Running`: every transition into `Running` sets it
and every transition out of `Running` clears it. -/
theorem c2_endpoint_iff_running (cfg : Config) (es : List Event) :
    (run cfg (initDesc cfg) es).executionEndpoint.isSome = true ↔
      (run cfg (initDesc cfg) es).state = .Running :=
  endpointInv_run cfg es (initDesc cfg) (by simp [endpointInv, initDesc])

/-! ## Claim C5: the query-failure retry budget -/

/-- Any long-enough run of consecutive query failures from a polling state
exhausts the budget and yields `Terminal(SchedulerError)`. -/
lemma run_queryFailed_exhausts (cfg : Config) :
    ∀ (k : Nat) (d : SessionDescriptor),
    (d.state = .Submitted ∨ d.state = .Queued ∨ d.state = .Running) →
    cfg.queryFailBound ≤ d.queryFailStreak + k → 0 < k →
    (run cfg d (List.replicate k .queryFailed)).state = .Terminal ∧
    (run cfg d (List.replicate k .queryFailed)).terminationReason =
      some .SchedulerError := by
  intro k
  induction k with
  | zero => intro d _ _ hk; omega
  | succ n ih =>
      intro d hpoll hb _
      have hstep : step cfg d .queryFailed = queryFail cfg d := by
        rcases hpoll with h | h | h <;>
          simp [step, stepPolling, stepRunning, h]
      rw [List.replicate_succ]
      simp only [run, hstep]
      by_cases h1 : cfg.queryFailBound ≤ d.queryFailStreak + 1
      · have hterm :
            (queryFail cfg d).1.state = .Terminal ∧
            (queryFail cfg d).1.terminationReason = some .SchedulerError := by
          simp [queryFail, h1]
        rw [run_of_terminal cfg _ _ hterm.1]
        exact hterm
      · have hd1 : (queryFail cfg d).1 =
            { d with queryFailStreak := d.queryFailStreak + 1 } := by
          simp [queryFail, h1]
        rw [hd1]
        exact ih _ (by rcases hpoll with h | h | h <;> simp [h])
          (by simp; omega) (by omega)

/-- C5: for the configured bound N (positive), a run of N consecutive
`SchedulerUnavailable` query failures from any polling state (`Submitted`,
`Queued` or `Running`, whatever the current failure streak) deterministically
drives the session to `Terminal` with terminationReason `SchedulerError`;
the poll loop cannot iterate forever under persistent query failure. -/
theorem c5_query_budget_exhaustion (cfg : Config) (d : SessionDescriptor)
    (hpoll : d.state = .Submitted ∨ d.state = .Queued ∨ d.state = .Running)
    (hN : 0 < cfg.queryFailBound) :
    (run cfg d (List.replicate cfg.queryFailBound .queryFailed)).state =
      .Terminal ∧
    (run cfg d
        (List.replicate cfg.queryFailBound .queryFailed)).terminationReason =
      some .SchedulerError :=
  run_queryFailed_exhausts cfg cfg.queryFailBound d hpoll (by omega) hN

/-- Witness for C5: bound 3, a queued session; three consecutive query
failures yield Terminal(SchedulerError). -/
theorem c5_query_budget_exhaustion_witness :
    (run ⟨3, 2⟩ ⟨some "123", .Queued, none, none, none, 2, 0⟩
        (List.replicate 3 .queryFailed)).state = .Terminal ∧
    (run ⟨3, 2⟩ ⟨some "123", .Queued, none, none, none, 2, 0⟩
        (List.replicate 3 .queryFailed)).terminationReason =
      some .SchedulerError :=
  c5_query_budget_exhaustion ⟨3, 2⟩
    ⟨some "123", .Queued, none, none, none, 2, 0⟩
    (Or.inr (Or.inl rfl)) (by decide)

/-! ## Claim C7: entering Terminal is idempotent -/

/-- C7: applying any transition to a session already in `Terminal` is a
no-op that issues no call; in particular `cancel` (the user-close event) on
an already-Terminal session leaves the session unchanged and does not
re-issue `remove`. -/
theorem c7_terminal_idempotent (cfg : Config) (d : SessionDescriptor)
    (e : Event) (h : d.state = .Terminal) :
    step cfg d e = (d, []) ∧
    (step cfg d .userClose).1 = d ∧
    (step cfg d .userClose).2 = [] := by
  refine ⟨step_of_terminal cfg d e h, ?_, ?_⟩ <;>
    simp [step_of_terminal cfg d .userClose h]

/-- Witness for C7 at a concrete terminal descriptor and the cancel
event. -/
theorem c7_terminal_idempotent_witness :
    step ⟨3, 2⟩
      ⟨some "123", .Terminal, none, some .UserClosed, none, 2, 0⟩
      .userClose =
      (⟨some "123", .Terminal, none, some .UserClosed, none, 2, 0⟩, []) :=
  (c7_terminal_idempotent ⟨3, 2⟩
    ⟨some "123", .Terminal, none, some .UserClosed, none, 2, 0⟩
    .userClose rfl).1

/-! ## Claim C3: monotonicity along the lifecycle graph -/

/-- C3: every transition of the state machine moves weakly forward along the
graph Pending → Submitted → Queued → Running → Closing → Terminal, except
the single Preempted → Queued retry edge (a `Preempted` observation taking a
`Running` session back to `Queued`); and no transition leaves `Terminal`. -/
theorem c3_monotonic (cfg : Config) (d : SessionDescriptor) (e : Event) :
    (rank d.state ≤ rank (step cfg d e).1.state ∨
      (e = .observed .Preempted ∧ d.state = .Running ∧
        (step cfg d e).1.state = .Queued)) ∧
    (d.state = .Terminal → step cfg d e = (d, [])) := by
  obtain ⟨rid, st, ep, tr, fk, pr, qf⟩ := d
  refine ⟨?_, fun h => step_of_terminal cfg _ e h⟩
  cases st <;> cases e <;>
    (try cases ‹SchedulerObservedState›) <;>
    (try cases rid) <;>
    simp only [step, stepPending, stepPolling, stepRunning, stepClosing,
      pollObserved, handlePreempt, finishCleanup, beginClosing, queryFail] <;>
    (try split) <;>
    simp [rank]

/-- Witness for C3: the terminal part at a concrete terminal descriptor. -/
theorem c3_monotonic_witness :
    step ⟨3, 2⟩ ⟨some "9", .Terminal, none, some .Removed, none, 0, 0⟩
      .removeDone =
      (⟨some "9", .Terminal, none, some .Removed, none, 0, 0⟩, []) :=
  (c3_monotonic ⟨3, 2⟩ ⟨some "9", .Terminal, none, some .Removed, none, 0, 0⟩
    .removeDone).2 rfl

/-! ## Claim C4: the preemption path -/

/-- C4: observing `Preempted` in `Queued` or `Running` with retries
remaining returns the session to `Queued` with its requestId unchanged;
with the retry budget exhausted it enters `Terminal` with terminationReason
`Preempted`. -/
theorem c4_preemption (cfg : Config) (d : SessionDescriptor)
    (h : d.state = .Queued ∨ d.state = .Running) :
    (0 < d.preemptRetriesLeft →
      (step cfg d (.observed .Preempted)).1.state = .Queued ∧
      (step cfg d (.observed .Preempted)).1.requestId = d.requestId) ∧
    (d.preemptRetriesLeft = 0 →
      (step cfg d (.observed .Preempted)).1.state = .Terminal ∧
      (step cfg d (.observed .Preempted)).1.terminationReason =
        some .Preempted) := by
  obtain ⟨rid, st, ep, tr, fk, pr, qf⟩ := d
  rcases h with h | h <;> subst h <;>
    constructor <;> intro hr <;>
    simp [step, stepPolling, stepRunning, pollObserved, handlePreempt, hr] <;>
    (try cases rid) <;> simp_all [finishCleanup]

/-- Witness for C4: a running session with one retry left returns to
`Queued` keeping requestId "123". -/
theorem c4_preemption_witness :
    (step ⟨3, 2⟩ ⟨some "123", .Running, some "node7:5901", none, none, 1, 0⟩
        (.observed .Preempted)).1.state = .Queued ∧
    (step ⟨3, 2⟩ ⟨some "123", .Running, some "node7:5901", none, none, 1, 0⟩
        (.observed .Preempted)).1.requestId = some "123" :=
  (c4_preemption ⟨3, 2⟩
      ⟨some "123", .Running, some "node7:5901", none, none, 1, 0⟩
      (Or.inr rfl)).1 (by decide)

/-! ## Claim C6: a rejected submit surfaces immediately -/

/-- C6: when submit fails (`SchedulerRejected`), whatever happens
afterwards, the session is immediately `Terminal` with a scheduler error:
submit is never retried, no requestId is ever assigned, no call at all — in
particular no `remove` — is ever issued, and the process exit code is the
distinct `SchedulerRejected` code (which is selected exactly by this failure
kind). -/
theorem c6_submit_rejected (cfg : Config) (es : List Event) :
    (runAcc cfg (initDesc cfg) (.submitRejected :: es)).1.state =
      .Terminal ∧
    (runAcc cfg (initDesc cfg)
        (.submitRejected :: es)).1.terminationReason =
      some .SchedulerError ∧
    (runAcc cfg (initDesc cfg) (.submitRejected :: es)).1.requestId = none ∧
    (runAcc cfg (initDesc cfg) (.submitRejected :: es)).2 = [] ∧
    exitCode (runAcc cfg (initDesc cfg) (.submitRejected :: es)).1 =
      schedulerRejectedCode ∧
    (∀ d : SessionDescriptor, exitCode d = schedulerRejectedCode ↔
      d.terminationReason = some .SchedulerError ∧
        d.failKind = some .rejected) := by
  have h1 : step cfg (initDesc cfg) .submitRejected =
      ({ initDesc cfg with state := .Terminal,
                           terminationReason := some .SchedulerError,
                           failKind := some .rejected }, []) := by
    simp [step, initDesc, stepPending]
  have hterm : (step cfg (initDesc cfg) .submitRejected).1.state =
      .Terminal := by
    rw [h1]
  have h2 : runAcc cfg (initDesc cfg) (.submitRejected :: es) =
      ((step cfg (initDesc cfg) .submitRejected).1, []) := by
    show ((runAcc cfg (step cfg (initDesc cfg) .submitRejected).1 es).1,
        (step cfg (initDesc cfg) .submitRejected).2 ++
          (runAcc cfg (step cfg (initDesc cfg) .submitRejected).1 es).2) =
      ((step cfg (initDesc cfg) .submitRejected).1, [])
    rw [runAcc_of_terminal cfg es _ hterm]
    simp [h1]
  rw [h2, h1]
  refine ⟨rfl, rfl, rfl, rfl, rfl, ?_⟩
  intro d
  obtain ⟨rid, st, ep, tr, fk, pr, qf⟩ := d
  cases tr <;> (try cases ‹TerminationReason›) <;>
    cases fk <;> (try cases ‹FailKind›) <;>
    simp [exitCode, schedulerRejectedCode]

/-- Witness for C6 at the empty continuation. -/
theorem c6_submit_rejected_witness :
    (runAcc ⟨3, 2⟩ (initDesc ⟨3, 2⟩) [.submitRejected]).1.requestId = none ∧
    (runAcc ⟨3, 2⟩ (initDesc ⟨3, 2⟩) [.submitRejected]).2 = [] ∧
    exitCode (runAcc ⟨3, 2⟩ (initDesc ⟨3, 2⟩) [.submitRejected]).1 =
      schedulerRejectedCode :=
  ⟨(c6_submit_rejected ⟨3, 2⟩ []).2.2.1,
   (c6_submit_rejected ⟨3, 2⟩ []).2.2.2.1,
   (c6_submit_rejected ⟨3, 2⟩ []).2.2.2.2.1⟩

/-! ## Claim C8: the adapter parses fail-closed -/

/-- C8: for every raw scheduler output, the adapter's query parse either
returns one of the normalized states or fails with `schedulerUnavailable`;
a `Running` result can only come from the mapped running token together
with a non-empty endpoint, and any output whose status token is outside the
known vocabulary surfaces `schedulerUnavailable` — never a benign state. -/
theorem c8_fail_closed (raw : RawOutput) :
    ((∃ s, queryParse raw = .ok s) ∨
      queryParse raw = .error .schedulerUnavailable) ∧
    (∀ e, queryParse raw = .ok (.Running e) →
      raw.status = "R" ∧ raw.endpoint = e ∧ e ≠ "") ∧
    (raw.status ∉ knownStatusTokens →
      queryParse raw = .error .schedulerUnavailable) := by
  obtain ⟨stt, ep⟩ := raw
  refine ⟨?_, ?_, ?_⟩
  · simp only [queryParse]
    split_ifs <;>
      first
        | exact Or.inl ⟨_, rfl⟩
        | exact Or.inr rfl
  · intro e h
    simp only [queryParse] at h
    split_ifs at h <;> simp_all
  · intro hk
    simp only [queryParse]
    split_ifs <;> simp_all [knownStatusTokens]

/-- Witness for C8: an unmapped status token surfaces
`schedulerUnavailable`. -/
theorem c8_fail_closed_witness :
    queryParse ⟨"Z", "node7:5901"⟩ = .error .schedulerUnavailable :=
  (c8_fail_closed ⟨"Z", "node7:5901"⟩).2.2 (by decide)

/-! ## Claim C9: ordering of removal and channel open -/

/-- Membership is preserved by extending the list. -/
lemma strMem_cons_of (i j : String) (l : List String)
    (h : strMem i l = true) : strMem i (j :: l) = true := by
  simp [strMem, h]

/-- The head is a member. -/
lemma strMem_self (i : String) (l : List String) :
    strMem i (i :: l) = true := by
  simp [strMem]

/-- Processing an event only grows the known requestIds. -/
lemma strMem_evKnown_of (i : String) (known : List String) (e : SysEvent)
    (h : strMem i known = true) : strMem i (evKnown known e) = true := by
  cases e with
  | normal ev => cases ev <;> simp [evKnown, strMem, h]
  | crash => simpa [evKnown] using h
  | restart => simpa [evKnown] using h

/-- Processing an event only grows the seen endpoints. -/
lemma strMem_evSeen_of (ep : String) (seen : List String) (e : SysEvent)
    (h : strMem ep seen = true) : strMem ep (evSeen seen e) = true := by
  cases e with
  | normal ev =>
      cases ev <;> (try cases ‹SchedulerObservedState›) <;>
        simp [evSeen, strMem, h]
  | crash => simpa [evSeen] using h
  | restart => simpa [evSeen] using h

/-- Scanning past an event updates the scan state by `evKnown`/`evSeen`. -/
lemma orderedScan_ev (known seen : List String) (e : SysEvent)
    (t : List TraceItem) :
    orderedScan known seen (.ev e :: t) =
      orderedScan (evKnown known e) (evSeen seen e) t := by
  cases e with
  | normal ev =>
      cases ev <;> (try cases ‹SchedulerObservedState›) <;> rfl
  | crash => rfl
  | restart => rfl

/-- What one state-machine step can emit and record: a removal call only
names the current requestId; a channel open only comes from the `Running`
observation carrying that endpoint; the requestId is only newly assigned by
the submit result; the endpoint is only newly set by a `Running`
observation. -/
lemma step_emits (cfg : Config) (d : SessionDescriptor) (e : Event) :
    (∀ i, Action.removeCall i ∈ (step cfg d e).2 → d.requestId = some i) ∧
    (∀ ep, Action.openChannel ep ∈ (step cfg d e).2 →
      e = .observed (.Running ep)) ∧
    (∀ i, (step cfg d e).1.requestId = some i →
      d.requestId = some i ∨ e = .submitOk i) ∧
    (∀ ep, (step cfg d e).1.executionEndpoint = some ep →
      d.executionEndpoint = some ep ∨ e = .observed (.Running ep)) := by
  obtain ⟨rid, st, ep0, tr, fk, pr, qf⟩ := d
  cases st <;> cases e <;>
    (try cases ‹SchedulerObservedState›) <;>
    (try cases rid) <;>
    simp only [step, stepPending, stepPolling, stepRunning, stepClosing,
      pollObserved, handlePreempt, finishCleanup, beginClosing, queryFail] <;>
    (try split) <;>
    simp_all

/-- Actions whose removal ids are known and whose endpoints are seen pass
the scan. -/
lemma orderedScan_acts (known seen : List String) :
    ∀ (as : List Action) (t : List TraceItem),
    (∀ i, Action.removeCall i ∈ as → strMem i known = true) →
    (∀ ep, Action.openChannel ep ∈ as → strMem ep seen = true) →
    orderedScan known seen t = true →
    orderedScan known seen (as.map .act ++ t) = true := by
  intro as
  induction as with
  | nil => intro t _ _ ht; simpa using ht
  | cons a as ih =>
      intro t hr ho ht
      cases a with
      | removeCall i =>
          simp only [List.map_cons, List.cons_append, orderedScan,
            Bool.and_eq_true]
          exact ⟨hr i (by simp),
            ih t (fun j hj => hr j (by simp [hj]))
              (fun p hp => ho p (by simp [hp])) ht⟩
      | openChannel ep =>
          simp only [List.map_cons, List.cons_append, orderedScan,
            Bool.and_eq_true]
          exact ⟨ho ep (by simp),
            ih t (fun j hj => hr j (by simp [hj]))
              (fun p hp => ho p (by simp [hp])) ht⟩
      | closeChannel =>
          simp only [List.map_cons, List.cons_append, orderedScan]
          exact ih t (fun j hj => hr j (by simp [hj]))
            (fun p hp => ho p (by simp [hp])) ht

/-- The whole-process trace from any world satisfying the scan invariant
passes the ordering scan. -/
lemma orderedScan_sysTrace (cfg : Config) :
    ∀ (es : List SysEvent) (w : World) (known seen : List String),
    scanInv w known seen →
    orderedScan known seen (sysTrace cfg w es) = true := by
  intro es
  induction es with
  | nil => intro w known seen _; rfl
  | cons e es ih =>
      intro w known seen hw
      obtain ⟨hw1, hw2, hw3⟩ := hw
      obtain ⟨wd, wm, ws⟩ := w
      cases e with
      | crash =>
          have ht : sysTrace cfg ⟨wd, wm, ws⟩ (.crash :: es) =
              .ev .crash :: sysTrace cfg ⟨none, wm, ws⟩ es := by
            simp [sysTrace, sysStep]
          rw [ht, orderedScan_ev]
          exact ih ⟨none, wm, ws⟩ _ _ ⟨by simp, hw2, by simp⟩
      | restart =>
          cases wd with
          | some d0 =>
              have ht : sysTrace cfg ⟨some d0, wm, ws⟩ (.restart :: es) =
                  .ev .restart :: sysTrace cfg ⟨some d0, wm, ws⟩ es := by
                simp [sysTrace, sysStep]
              rw [ht, orderedScan_ev]
              exact ih ⟨some d0, wm, ws⟩ _ _ ⟨hw1, hw2, hw3⟩
          | none =>
              cases wm with
              | some i =>
                  have ht : sysTrace cfg ⟨none, some i, ws⟩ (.restart :: es) =
                      .ev .restart :: .act (.removeCall i) ::
                        sysTrace cfg ⟨none, none, ws⟩ es := by
                    simp [sysTrace, sysStep]
                  rw [ht, orderedScan_ev]
                  simp only [orderedScan, Bool.and_eq_true]
                  exact ⟨hw2 i rfl,
                    ih ⟨none, none, ws⟩ _ _ ⟨by simp, by simp, by simp⟩⟩
              | none =>
                  have ht : sysTrace cfg ⟨none, none, ws⟩ (.restart :: es) =
                      .ev .restart :: sysTrace cfg ⟨none, none, ws⟩ es := by
                    simp [sysTrace, sysStep]
                  rw [ht, orderedScan_ev]
                  exact ih ⟨none, none, ws⟩ _ _ ⟨by simp, by simp, by simp⟩
      | normal ev =>
          cases wd with
          | none =>
              have ht : sysTrace cfg ⟨none, wm, ws⟩ (.normal ev :: es) =
                  .ev (.normal ev) :: sysTrace cfg ⟨none, wm, ws⟩ es := by
                simp [sysTrace, sysStep]
              rw [ht, orderedScan_ev]
              exact ih ⟨none, wm, ws⟩ _ _
                ⟨by simp,
                 fun i hi => strMem_evKnown_of i known _ (hw2 i hi),
                 by simp⟩
          | some d =>
              obtain ⟨he1, he2, he3, he4⟩ := step_emits cfg d ev
              have ht : sysTrace cfg ⟨some d, wm, ws⟩ (.normal ev :: es) =
                  .ev (.normal ev) ::
                    ((step cfg d ev).2.map .act ++
                      sysTrace cfg (sysStep cfg ⟨some d, wm, ws⟩
                        (.normal ev)).1 es) := by
                simp [sysTrace, sysStep]
              rw [ht, orderedScan_ev]
              apply orderedScan_acts
              · intro i hi
                exact strMem_evKnown_of i known _
                  (hw1 d rfl i (he1 i hi))
              · intro ep hp
                rcases he2 ep hp with h
                subst h
                exact strMem_self ep seen
              · apply ih
                refine ⟨?_, ?_, ?_⟩
                · intro d' hd' i hi
                  simp only [sysStep] at hd'
                  rw [Option.some.injEq] at hd'
                  rcases he3 i (hd' ▸ hi) with h | h
                  · exact strMem_evKnown_of i known _ (hw1 d rfl i h)
                  · subst h
                    exact strMem_self i known
                · intro i hi
                  simp only [sysStep] at hi
                  split at hi
                  · exact absurd hi (by simp)
                  · split at hi
                    · rcases he3 i hi with h | h
                      · exact strMem_evKnown_of i known _ (hw1 d rfl i h)
                      · subst h
                        exact strMem_self i known
                    · exact strMem_evKnown_of i known _ (hw2 i hi)
                · intro d' hd' ep hp
                  simp only [sysStep] at hd'
                  rw [Option.some.injEq] at hd'
                  rcases he4 ep (hd' ▸ hp) with h | h
                  · exact strMem_evSeen_of ep seen _ (hw3 d rfl ep h)
                  · subst h
                    exact strMem_self ep seen

/-- C9: in every whole-process execution — any sequence of events,
including crashes and restarts — the interleaved trace of events and issued
calls passes the ordering scan: a scheduler removal for an id is never
issued before the submit result assigning that id has been processed, and
the interactive channel is never opened towards an endpoint before that
endpoint has been observed `Running`. -/
theorem c9_ordering (cfg : Config) (es : List SysEvent) :
    orderedScan [] [] (sysTrace cfg (initWorld cfg) es) = true :=
  orderedScan_sysTrace cfg es (initWorld cfg) [] []
    ⟨by simp [initWorld, initDesc], by simp [initWorld],
     by simp [initWorld, initDesc]⟩

/-! ## Claim C1: exactly one removal per submitted requestId -/

/-- Removal counts add over concatenation. -/
lemma removeCount_append (i : String) (as bs : List Action) :
    removeCount i (as ++ bs) = removeCount i as + removeCount i bs := by
  induction as with
  | nil => simp [removeCount]
  | cons a as ih =>
      cases a with
      | removeCall j => simp [removeCount, ih]; omega
      | openChannel ep => simp [removeCount, ih]
      | closeChannel => simp [removeCount, ih]

/-- The cleanup invariant only depends on the values of the count
function. -/
lemma cleanupInv_congr (w : World) (rc rc' : String → Nat)
    (hrr : ∀ i, rc' i = rc i) (h : cleanupInv w rc) : cleanupInv w rc' := by
  obtain ⟨h1, h2, h3, h4, h5, h6⟩ := h
  exact ⟨fun i => (hrr i).trans (h1 i), h2, h3, h4, h5, h6⟩

/-- Classification of one state-machine step for the Cleanup Guarantor:
either it issues no removal and counts stay zero, or it is a cleanup step
from a polling state issuing exactly one removal naming the current
requestId; the requestId is only newly assigned by the submit result while
`Pending`; no step enters `Pending`; a step landing in a polling state
issued no removal and came from a polling state or `Pending`; a step
landing in `Closing` either issued the removal or was a no-op already in
`Closing`. -/
lemma step_cleanup_facts (cfg : Config) (d : SessionDescriptor) (e : Event) :
    (((step cfg d e).2.any isRemoveCall = false ∧
        ∀ i, removeCount i (step cfg d e).2 = 0) ∨
      ((d.state = .Submitted ∨ d.state = .Queued ∨ d.state = .Running) ∧
        ∃ j, d.requestId = some j ∧
          (∀ i, removeCount i (step cfg d e).2 = if j = i then 1 else 0) ∧
          (step cfg d e).2.any isRemoveCall = true)) ∧
    ((step cfg d e).1.requestId = d.requestId ∨
      (d.state = .Pending ∧ (step cfg d e).2 = [] ∧
        (step cfg d e).1.requestId.isSome = true ∧
        (step cfg d e).1.state = .Submitted)) ∧
    ((step cfg d e).1.state = .Pending → step cfg d e = (d, [])) ∧
    (((step cfg d e).1.state = .Submitted ∨
        (step cfg d e).1.state = .Queued ∨
        (step cfg d e).1.state = .Running) →
      (d.state = .Submitted ∨ d.state = .Queued ∨ d.state = .Running ∨
        d.state = .Pending) ∧ (step cfg d e).2.any isRemoveCall = false) ∧
    ((step cfg d e).1.state = .Closing →
      (step cfg d e).2.any isRemoveCall = true ∨
      (d.state = .Closing ∧ (step cfg d e).2 = [])) := by
  obtain ⟨rid, st, ep0, tr, fk, pr, qf⟩ := d
  cases st <;> cases e <;>
    (try cases ‹SchedulerObservedState›) <;>
    (try cases rid) <;>
    simp only [step, stepPending, stepPolling, stepRunning, stepClosing,
      pollObserved, handlePreempt, finishCleanup, beginClosing, queryFail] <;>
    (try split) <;>
    simp_all [removeCount, isRemoveCall]

/-- One process-level step preserves the cleanup invariant, accumulating the
removal counts. -/
lemma cleanupInv_sysStep (cfg : Config) (w : World) (e : SysEvent)
    (rc : String → Nat) (h : cleanupInv w rc) :
    cleanupInv (sysStep cfg w e).1
      (fun i => rc i + removeCount i (sysStep cfg w e).2) := by
  obtain ⟨h1, h2, h3, h4, h5, h6⟩ := h
  obtain ⟨wd, wm, ws⟩ := w
  cases e with
  | crash =>
      have hs : sysStep cfg ⟨wd, wm, ws⟩ .crash = (⟨none, wm, ws⟩, []) := rfl
      rw [hs]
      exact ⟨fun i => by simpa [removeCount] using h1 i, h2, by simp,
        by simp, by simp, by simp⟩
  | restart =>
      cases wd with
      | some d0 =>
          have hs : sysStep cfg ⟨some d0, wm, ws⟩ .restart =
              (⟨some d0, wm, ws⟩, []) := rfl
          rw [hs]
          exact ⟨fun i => by simpa [removeCount] using h1 i, h2, h3, h4,
            h5, h6⟩
      | none =>
          cases wm with
          | some i0 =>
              have hs : sysStep cfg ⟨none, some i0, ws⟩ .restart =
                  (⟨none, none, ws⟩, [.removeCall i0]) := rfl
              rw [hs]
              have hws : ws = some i0 := h2 i0 rfl
              refine ⟨fun i => ?_, by simp, by simp, by simp, by simp,
                by simp⟩
              have hrc : rc i = 0 := by simpa [hws] using h1 i
              by_cases hii : i0 = i <;>
                simp [removeCount, hrc, hws, hii]
          | none =>
              have hs : sysStep cfg ⟨none, none, ws⟩ .restart =
                  (⟨none, none, ws⟩, []) := rfl
              rw [hs]
              exact ⟨fun i => by simpa [removeCount] using h1 i, by simp,
                by simp, by simp, by simp, by simp⟩
  | normal ev =>
      cases wd with
      | none =>
          have hs : sysStep cfg ⟨none, wm, ws⟩ (.normal ev) =
              (⟨none, wm, ws⟩, []) := rfl
          rw [hs]
          exact ⟨fun i => by simpa [removeCount] using h1 i, h2, by simp,
            by simp, by simp, by simp⟩
      | some d =>
          obtain ⟨f1, f5, f6, f7, f8⟩ := step_cleanup_facts cfg d ev
          have hrid : d.requestId = ws := h3 d rfl
          have hs : sysStep cfg ⟨some d, wm, ws⟩ (.normal ev) =
              (⟨some (step cfg d ev).1,
                if (step cfg d ev).2.any isRemoveCall then none
                else if d.requestId.isNone && (step cfg d ev).1.requestId.isSome
                  then (step cfg d ev).1.requestId else wm,
                if d.requestId.isNone && (step cfg d ev).1.requestId.isSome
                  then (step cfg d ev).1.requestId else ws⟩,
               (step cfg d ev).2) := rfl
          rw [hs]
          rcases f1 with ⟨hbf, hz⟩ | ⟨hpoll, j, hj, hcount, hbt⟩
          · -- no removal issued by this step
            by_cases hnew :
                (d.requestId.isNone && (step cfg d ev).1.requestId.isSome) =
                  true
            · -- the requestId was newly assigned by the submit result
              have hridnone : d.requestId = none := by
                revert hnew
                cases d.requestId <;> simp
              have hwsnone : ws = none := hrid.symm.trans hridnone
              have hwmnone : wm = none := by
                cases hwm : wm with
                | none => rfl
                | some k =>
                    have := h2 k hwm
                    rw [hwsnone] at this
                    cases this
              obtain ⟨k, hk⟩ : ∃ k, (step cfg d ev).1.requestId = some k := by
                revert hnew
                cases (step cfg d ev).1.requestId <;> simp
              simp only [hbf, hnew, Bool.false_eq_true, if_false, if_true]
              refine ⟨fun i => ?_, fun i hi => hi, ?_, ?_, ?_, ?_⟩
              · have : rc i = 0 := by simpa [hwsnone] using h1 i
                simp [this, hz i, hk]
              · intro d' hd'
                injection hd' with hd'
                subst hd'
                rfl
              · intro d' hd' hp
                injection hd' with hd'
                subst hd'
                exfalso
                have h0 := f6 hp
                have hcontra : (step cfg d ev).1.requestId = d.requestId := by
                  rw [h0]
                rw [hk, hridnone] at hcontra
                cases hcontra
              · intro d' hd' hp
                rfl
              · intro d' hd' hp
                injection hd' with hd'
                subst hd'
                exfalso
                rcases f8 hp with hc | ⟨hc, _⟩
                · rw [hbf] at hc; cases hc
                · rcases f5 with h0 | ⟨h0, _⟩
                  · rw [h0, hridnone] at hk; cases hk
                  · rw [hc] at h0; cases h0
            · -- requestId unchanged
              have hnewf :
                  (d.requestId.isNone &&
                    (step cfg d ev).1.requestId.isSome) = false := by
                revert hnew
                cases d.requestId.isNone &&
                  (step cfg d ev).1.requestId.isSome <;> simp
              have hreq : (step cfg d ev).1.requestId = d.requestId := by
                rcases f5 with h0 | ⟨hp, _, hsome, _⟩
                · exact h0
                · exfalso
                  have hws0 : ws = none := h4 d rfl hp
                  have hrid0 : d.requestId = none := hrid.trans hws0
                  rw [hrid0] at hnewf
                  rw [hsome] at hnewf
                  cases hnewf
              simp only [hbf, hnewf, Bool.false_eq_true, if_false]
              refine ⟨fun i => ?_, h2, ?_, ?_, ?_, ?_⟩
              · simpa [hz i] using h1 i
              · intro d' hd'
                injection hd' with hd'
                subst hd'
                exact hreq.trans hrid
              · intro d' hd' hp
                injection hd' with hd'
                subst hd'
                have h0 := f6 hp
                have hdp : d.state = .Pending := by
                  have hst : (step cfg d ev).1.state = d.state := by rw [h0]
                  rw [← hst]
                  exact hp
                exact h4 d rfl hdp
              · intro d' hd' hp
                injection hd' with hd'
                subst hd'
                rcases (f7 hp).1 with h0 | h0 | h0 | h0
                · exact h5 d rfl (Or.inl h0)
                · exact h5 d rfl (Or.inr (Or.inl h0))
                · exact h5 d rfl (Or.inr (Or.inr h0))
                · have hws0 : ws = none := h4 d rfl h0
                  have hwm0 : wm = none := by
                    cases hwm : wm with
                    | none => rfl
                    | some k =>
                        have := h2 k hwm
                        rw [hws0] at this
                        cases this
                  rw [hws0, hwm0]
              · intro d' hd' hp
                injection hd' with hd'
                subst hd'
                rcases f8 hp with hc | ⟨hc, _⟩
                · rw [hbf] at hc; cases hc
                · exact h6 d rfl hc
          · -- a removal was issued: the session moved to Closing/Terminal
            have hwm : wm = ws := h5 d rfl hpoll
            have hws : ws = some j := hrid.symm.trans hj
            have hreq : (step cfg d ev).1.requestId = d.requestId := by
              rcases f5 with h0 | ⟨_, hnil, _, _⟩
              · exact h0
              · exfalso
                rw [hnil] at hbt
                cases hbt
            have hnewf :
                (d.requestId.isNone &&
                  (step cfg d ev).1.requestId.isSome) = false := by
              rw [hj]
              simp
            simp only [hbt, hnewf, Bool.false_eq_true, if_true, if_false]
            refine ⟨fun i => ?_, by simp, ?_, ?_, ?_, fun d' _ _ => rfl⟩
            · have hrc : rc i = 0 := by
                simpa [hws, hwm] using h1 i
              by_cases hii : j = i <;>
                simp [hcount i, hrc, hws, hii]
            · intro d' hd'
              injection hd' with hd'
              subst hd'
              exact hreq.trans hrid
            · intro d' hd' hp
              injection hd' with hd'
              subst hd'
              exfalso
              have h0 := f6 hp
              have hnil : (step cfg d ev).2 = [] := by rw [h0]
              rw [hnil] at hbt
              cases hbt
            · intro d' hd' hp
              injection hd' with hd'
              subst hd'
              exfalso
              have hc := (f7 hp).2
              rw [hbt] at hc
              cases hc

/-- A whole process-level run preserves the cleanup invariant, accumulating
the removal counts of all issued calls. -/
lemma cleanupInv_sysRunAcc (cfg : Config) :
    ∀ (es : List SysEvent) (w : World) (rc : String → Nat),
    cleanupInv w rc →
    cleanupInv (sysRunAcc cfg w es).1
      (fun i => rc i + removeCount i (sysRunAcc cfg w es).2) := by
  intro es
  induction es with
  | nil =>
      intro w rc h
      exact cleanupInv_congr w rc _ (fun i => by simp [sysRunAcc, removeCount]) h
  | cons e es ih =>
      intro w rc h
      have hrun : sysRunAcc cfg w (e :: es) =
          ((sysRunAcc cfg (sysStep cfg w e).1 es).1,
           (sysStep cfg w e).2 ++
             (sysRunAcc cfg (sysStep cfg w e).1 es).2) := rfl
      rw [hrun]
      have hstep := cleanupInv_sysStep cfg w e rc h
      have hrest := ih (sysStep cfg w e).1 _ hstep
      exact cleanupInv_congr _ _ _
        (fun i => by rw [removeCount_append]; omega) hrest

/-- C1: over any whole-process run — crashes and restarts included — at
most one scheduler removal is ever issued for any requestId; and for the
requestId that reached `Submitted`, once the session's lifetime is complete
(removal obligation cleared, no live non-terminal descriptor), exactly one
removal was issued: never zero, never more than one. -/
theorem c1_exactly_one_removal (cfg : Config) (es : List SysEvent)
    (i : String) :
    removeCount i (sysRunAcc cfg (initWorld cfg) es).2 ≤ 1 ∧
    ((sysRunAcc cfg (initWorld cfg) es).1.submittedId = some i →
      lifetimeComplete (sysRunAcc cfg (initWorld cfg) es).1 →
      removeCount i (sysRunAcc cfg (initWorld cfg) es).2 = 1) := by
  have hinit : cleanupInv (initWorld cfg) (fun _ => 0) := by
    refine ⟨fun i => by simp [initWorld], by simp [initWorld], ?_, ?_, ?_, ?_⟩ <;>
      intro d hd <;>
      simp [initWorld] at hd <;>
      simp [← hd, initDesc, initWorld]
  have h := cleanupInv_sysRunAcc cfg es (initWorld cfg) (fun _ => 0) hinit
  have h1 := h.1 i
  simp only [Nat.zero_add] at h1
  constructor
  · rw [h1]
    split <;> omega
  · intro hs hc
    rw [h1, if_pos ⟨hs, hc.1⟩]

/-- Witness for C1: a session submitted as "123", observed Running, then
interrupted by a crash mid-Running and reconciled on restart: its lifetime
is complete and exactly one removal was issued. -/
theorem c1_exactly_one_removal_witness :
    (sysRunAcc ⟨3, 2⟩ (initWorld ⟨3, 2⟩)
        [.normal (.submitOk "123"),
         .normal (.observed (.Running "node7:5901")),
         .crash, .restart]).1.submittedId = some "123" ∧
    removeCount "123"
      (sysRunAcc ⟨3, 2⟩ (initWorld ⟨3, 2⟩)
        [.normal (.submitOk "123"),
         .normal (.observed (.Running "node7:5901")),
         .crash, .restart]).2 = 1 := by
  have hdesc : (sysRunAcc ⟨3, 2⟩ (initWorld ⟨3, 2⟩)
      [.normal (.submitOk "123"),
       .normal (.observed (.Running "node7:5901")),
       .crash, .restart]).1.desc = none := by decide
  have hmark : (sysRunAcc ⟨3, 2⟩ (initWorld ⟨3, 2⟩)
      [.normal (.submitOk "123"),
       .normal (.observed (.Running "node7:5901")),
       .crash, .restart]).1.marker = none := by decide
  have hsub : (sysRunAcc ⟨3, 2⟩ (initWorld ⟨3, 2⟩)
      [.normal (.submitOk "123"),
       .normal (.observed (.Running "node7:5901")),
       .crash, .restart]).1.submittedId = some "123" := by decide
  refine ⟨hsub, ?_⟩
  exact (c1_exactly_one_removal ⟨3, 2⟩
      [.normal (.submitOk "123"),
       .normal (.observed (.Running "node7:5901")),
       .crash, .restart] "123").2 hsub
    ⟨hmark, fun d hd => by rw [hdesc] at hd; cases hd⟩

/-! ## Claim C10: the `setup.py` module -/

/-- C10: evaluating the only source module binds `meta` to a literal
dictionary with exactly the eight keys name, version, license, description,
author, author_email, url, scripts — with name "clusterui", version "0.1"
and scripts the one-element list ["cui"] — and calls `setup` exactly once
with precisely those keyword arguments; being a constant, evaluation yields
the same result on every run. -/
theorem c10_setup_module :
    moduleSetupCalls = [meta] ∧
    moduleSetupCalls.length = 1 ∧
    meta.map Prod.fst =
      ["name", "version", "license", "description", "author",
       "author_email", "url", "scripts"] ∧
    meta.lookup "name" = some (.str "clusterui") ∧
    meta.lookup "version" = some (.str "0.1") ∧
    meta.lookup "scripts" = some (.strList ["cui"]) :=
  ⟨rfl, rfl, rfl, rfl, rfl, rfl⟩

end ClusterUI
